import Mathlib

/-!
Verification development for the olmOCR Streamlit conversion front end
(`streamlit_app.py`).  The definitions below are a shallow embedding of the
conversion-job orchestrator: the workspace clearing and staging logic of
`run_olmocr_conversion`, the command construction, the vLLM health probe
`check_vllm_server_status`, the per-line log handling of the read loop in
`main`, the `latex_replace` text transform, and the result
collection/packaging branch of `main` after process exit.
-/

set_option linter.unusedVariables false

/-! ## Basic string utilities (Python substring / join / splitext) -/

/-- Boolean substring occurrence on character lists.  `occursIn pat l` is the
Python expression `pat in l` for strings: true when `pat` occurs contiguously
inside `l`. -/
def occursIn (pat : List Char) : List Char → Bool
  | [] => pat.isEmpty
  | c :: rest => pat.isPrefixOf (c :: rest) || occursIn pat rest

/-- Python `pat in s` for strings. -/
def strContains (s pat : String) : Bool := occursIn pat.data s.data

/-- Python `",".join(xs)`. -/
def commaJoin : List String → String
  | [] => ""
  | [x] => x
  | x :: y :: rest => x ++ "," ++ commaJoin (y :: rest)

/-- The stem of `os.path.splitext(name)`: everything before the last dot,
where leading dots of the (slash-free) name never count as an extension
separator.  Uploaded browser file names contain no path separators. -/
def splitextStem (s : String) : String :=
  let cs := s.data
  let lead := cs.takeWhile (fun c => c = '.')
  let rest := cs.drop lead.length
  if rest.contains '.' then
    ⟨((cs.reverse.dropWhile (fun c => c ≠ '.')).drop 1).reverse⟩
  else s

/-- Python `name.endswith(".md")`, used by the artifact walks in `main`. -/
def hasMdExt (name : String) : Bool := ['.', 'm', 'd'].isSuffixOf name.data

/-! ## Log line handling (read loop of `main`, lines 366-389)

The read loop does two independent things per line: it increments two
counters (lines 374-377) and it picks a display class for the formatted
transcript through an if/elif chain (lines 381-388). -/

/-- Markers whose presence makes a line display as an error (line 381). -/
def errMarkers : List String := ["❌", "💥", "💀", "ERROR"]

/-- Markers whose presence makes a line display as a warning (line 383). -/
def warnMarkers : List String := ["⚠️", "WARNING"]

/-- Markers whose presence makes a line display as a success (line 385). -/
def successMarkers : List String := ["✅", "SUCCESS"]

/-- Python `any(symbol in line for symbol in markers)`. -/
def hasAnyMarker (line : String) (markers : List String) : Bool :=
  markers.any (fun m => strContains line m)

/-- Display classes assigned by the formatted-log chain in `main`. -/
inductive LogClass where
  | error
  | warning
  | success
  | normal
deriving DecidableEq, Repr

/-- The if/elif display chain of lines 381-388: error markers first, then
warning markers, then success markers, else the line is shown unchanged. -/
def classifyLine (line : String) : LogClass :=
  if hasAnyMarker line errMarkers then .error
  else if hasAnyMarker line warnMarkers then .warning
  else if hasAnyMarker line successMarkers then .success
  else .normal

/-- Line 374: `if "ERROR" in line or "💥" in line or "❌" in line` increments
`error_count`. -/
def countsAsError (line : String) : Bool :=
  strContains line "ERROR" || strContains line "💥" || strContains line "❌"

/-- Line 376: `if "CONNECTION ERROR" in line or "🔌" in line` increments
`connection_errors`, independently of the error counter. -/
def countsAsConnectionError (line : String) : Bool :=
  strContains line "CONNECTION ERROR" || strContains line "🔌"

/-! ## The `latex_replace` transform (lines 209-216)

`latex_replace` applies two sequential `re.sub` passes:
`re.sub(r"\\\[(.*?)\\\]", r"$$\1$$", md, flags=re.DOTALL)` and then
`re.sub(r"\\\((.*?)\\\)", r"$\1$", md, flags=re.DOTALL)`.  Each pass is a
left-to-right scan: at a literal backslash-open pair the non-greedy body
runs up to the first following backslash-close pair (any characters,
newlines included), the span is replaced by the body wrapped in the dollar
delimiters, and scanning resumes after the span; an open pair with no later
close pair is left verbatim.  `mathSub` is that scan as a character-level
state machine: the first `Option` argument is `none` while outside a span
and `some buf` (reversed body so far) while inside one. -/
def mathSub (openC closeC : Char) (wrap : List Char) :
    Option (List Char) → List Char → List Char
  | none, [] => []
  | none, '\\' :: c :: rest =>
      if c = openC then mathSub openC closeC wrap (some []) rest
      else '\\' :: mathSub openC closeC wrap none (c :: rest)
  | none, c :: rest => c :: mathSub openC closeC wrap none rest
  | some buf, [] => '\\' :: openC :: buf.reverse
  | some buf, '\\' :: c :: rest =>
      if c = closeC then
        wrap ++ buf.reverse ++ wrap ++ mathSub openC closeC wrap none rest
      else mathSub openC closeC wrap (some ('\\' :: buf)) (c :: rest)
  | some buf, c :: rest => mathSub openC closeC wrap (some (c :: buf)) rest

/-- First pass of `latex_replace`: display math, `\[ body \]` to `$$ body $$`. -/
def displayPass (l : List Char) : List Char := mathSub '[' ']' ['$', '$'] none l

/-- Second pass of `latex_replace`: inline math, `\( body \)` to `$ body $`. -/
def inlinePass (l : List Char) : List Char := mathSub '(' ')' ['$'] none l

/-- The `latex_replace` function of lines 209-216: display pass, then inline
pass over the display-pass result. -/
def latex_replace (md : String) : String := ⟨inlinePass (displayPass md.data)⟩

/-! ## Job configuration and command construction (lines 156-191)

The selectable languages are the ten entries of `language_options` in
`main`; serialisation uses the lingua enum member name (`l.name`). -/

/-- Languages offered by the sidebar multiselect (lines 225-237). -/
inductive Lang where
  | english
  | portuguese
  | spanish
  | french
  | german
  | italian
  | dutch
  | russian
  | chinese
  | japanese
deriving DecidableEq, Repr

/-- The lingua enum member name used at line 187 (`l.name`). -/
def Lang.lname : Lang → String
  | .english => "ENGLISH"
  | .portuguese => "PORTUGUESE"
  | .spanish => "SPANISH"
  | .french => "FRENCH"
  | .german => "GERMAN"
  | .italian => "ITALIAN"
  | .dutch => "DUTCH"
  | .russian => "RUSSIAN"
  | .chinese => "CHINESE"
  | .japanese => "JAPANESE"

/-- The configuration consumed by `run_olmocr_conversion`: the `**kwargs`
options together with the service base URL and the credential.  The code
reads `vllm_base_url` as a parameter and `VLLM_API_KEY` from the process
environment; both are fields of the JobConfig value object in the spec
(service base URL, optional service credential), so the environment
snapshot is modelled as part of the configuration.  `Option Nat` fields
model Python values that may be absent (`kwargs.get` returning `None`);
Python truthiness also drops `0` and the empty string/list. -/
structure JobConfig where
  vllm_base_url : String
  vllm_api_key : Option String
  target_dim : Option Nat
  apply_filter : Bool
  guided_decoding : Bool
  workers : Option Nat
  languages_to_keep : List Lang
deriving DecidableEq, Repr

/-- The `--languages_to_keep` flag token (line 188). -/
def langFlag : String := "--languages_to_keep"

/-- The command of lines 156-183: everything `run_olmocr_conversion` appends
to `cmd` before the language block — base invocation, staged input paths,
then each optional flag in the fixed order of the code, each guarded by the
Python truthiness of its configuration value. -/
def buildCmdNoLang (cfg : JobConfig) (workspace_dir : String)
    (pdf_paths : List String) : List String :=
  ["python", "-m", "olmocr.pipeline", workspace_dir, "--markdown", "--pdfs"]
    ++ pdf_paths
    ++ (if cfg.vllm_base_url ≠ "" then ["--vllm_base_url", cfg.vllm_base_url] else [])
    ++ (match cfg.vllm_api_key with
        | some k => if k ≠ "" then ["--vllm_api_key", k] else []
        | none => [])
    ++ (match cfg.target_dim with
        | some d => if d ≠ 0 then ["--target_longest_image_dim", toString d] else []
        | none => [])
    ++ (if cfg.apply_filter then ["--apply_filter"] else [])
    ++ (if cfg.guided_decoding then ["--guided_decoding"] else [])
    ++ (match cfg.workers with
        | some w => if w ≠ 0 then ["--workers", toString w] else []
        | none => [])

/-- The full argument vector: lines 184-191 append the language block last.
A non-empty allowed-language list appends the flag and the comma-joined
enum names in selection order; an empty list appends nothing. -/
def buildCmd (cfg : JobConfig) (workspace_dir : String)
    (pdf_paths : List String) : List String :=
  buildCmdNoLang cfg workspace_dir pdf_paths
    ++ (if cfg.languages_to_keep.isEmpty then []
        else [langFlag, commaJoin (cfg.languages_to_keep.map Lang.lname)])

/-! ## Health probe (`check_vllm_server_status`, lines 77-89) -/

/-- Result of the `requests.get` call against `{base_url}/v1/models`: either
a response with a status code, or one of the exceptions the bare `except`
absorbs (timeout after the 5 second bound, network failure, anything else). -/
inductive NetOutcome where
  | status (code : Nat)
  | timeout
  | connectionFailure
  | otherException
deriving DecidableEq, Repr

/-- The probe body: `response.status_code == 200` on a response, `False` on
any exception — the `try`/bare-`except` makes the function total. -/
def check_vllm_server_status : NetOutcome → Bool
  | .status code => code == 200
  | .timeout => false
  | .connectionFailure => false
  | .otherException => false

/-- The start-conversion gate of lines 322-325: when the probe fails the
handler shows an error and returns before `run_olmocr_conversion` and
`subprocess.Popen`; otherwise the command is built and spawned. -/
def spawnDecision (net : NetOutcome) (cfg : JobConfig) (workspace_dir : String)
    (pdf_paths : List String) : Option (List String) :=
  if check_vllm_server_status net then some (buildCmd cfg workspace_dir pdf_paths)
  else none

/-! ## Staging uploads (lines 134-150)

One run draws `session_timestamp = int(time.time())` and
`session_id = str(uuid.uuid4())[:8]` once, then writes every uploaded
buffer to `pdf_dir` under `f"{session_timestamp}_{session_id}_{name}"`.
The pdf directory is modelled as an association list where the most recent
write of a path shadows earlier ones, which is exactly `open(path, "wb")`
overwrite semantics. -/

/-- The run disambiguator prefix `f"{session_timestamp}_{session_id}"`. -/
def runPrefix (session_timestamp : Nat) (session_id : String) : String :=
  toString session_timestamp ++ "_" ++ session_id

/-- The staged file name of line 145:
`f"{session_timestamp}_{session_id}_{pdf_file.name}"`. -/
def stageName (session_timestamp : Nat) (session_id : String)
    (name : String) : String :=
  runPrefix session_timestamp session_id ++ "_" ++ name

/-- Contents of the pdf directory: written name, written bytes. -/
abbrev PdfStore : Type := List (String × List Nat)

/-- `open(path, "wb")` followed by `f.write(buffer)`: the new file content
replaces any previous content at the same path. -/
def storeWrite (s : PdfStore) (path : String) (buf : List Nat) : PdfStore :=
  (path, buf) :: s

/-- Read back a path: the most recent write wins. -/
def storeRead (s : PdfStore) (path : String) : Option (List Nat) :=
  (s.find? (fun e => e.1 == path)).map (fun e => e.2)

/-- The staging loop of lines 143-150 for one run: stage every uploaded
`(name, buffer)` pair in order, returning the produced path list (in upload
order) and the resulting directory contents. -/
def stageUploads (session_timestamp : Nat) (session_id : String)
    (uploads : List (String × List Nat)) (s : PdfStore) :
    List String × PdfStore :=
  match uploads with
  | [] => ([], s)
  | (name, buf) :: rest =>
      let path := stageName session_timestamp session_id name
      let (paths, s2) :=
        stageUploads session_timestamp session_id rest (storeWrite s path buf)
      (path :: paths, s2)

/-! ## Workspace clearing (lines 92-132)

`run_olmocr_conversion` starts with `get_workspace_dirs()` (which
`os.makedirs(..., exist_ok=True)` the pdf and outputs directories) and then
unconditionally clears prior state: the work-index file is removed if it
exists, the pdf directory is removed and recreated, the results and
markdown directories are removed if they exist.  None of these operations
consult `kwargs`.  The fallible primitives below fail like the raw
`os.remove`/`shutil.rmtree` would on an absent target; the code only ever
calls them behind an `os.path.exists` guard. -/

/-- Filesystem errors surfaced by the raw primitives. -/
inductive IOErr where
  | fileNotFound
deriving DecidableEq, Repr

/-- Presence/contents of the workspace areas touched by the prelude. -/
structure WsState where
  pdfDir : Option PdfStore
  outputsDirPresent : Bool
  resultsDirPresent : Bool
  markdownDirPresent : Bool
  workIndexPresent : Bool
deriving DecidableEq, Repr

/-- `get_workspace_dirs` (lines 64-74): `os.makedirs(pdf_dir, exist_ok=True)`
and `os.makedirs(outputs_dir, exist_ok=True)` — create if absent, keep if
present. -/
def get_workspace_dirs (s : WsState) : WsState :=
  { s with
    pdfDir := some (s.pdfDir.getD []),
    outputsDirPresent := true }

/-- Raw `os.remove(work_index_file)`: fails when the file is absent. -/
def osRemoveWorkIndex (s : WsState) : Except IOErr WsState :=
  if s.workIndexPresent then .ok { s with workIndexPresent := false }
  else .error .fileNotFound

/-- Raw `shutil.rmtree(pdf_dir)`: fails when the directory is absent. -/
def rmtreePdfDir (s : WsState) : Except IOErr WsState :=
  match s.pdfDir with
  | some _ => .ok { s with pdfDir := none }
  | none => .error .fileNotFound

/-- Raw `shutil.rmtree(results_dir)`. -/
def rmtreeResultsDir (s : WsState) : Except IOErr WsState :=
  if s.resultsDirPresent then .ok { s with resultsDirPresent := false }
  else .error .fileNotFound

/-- Raw `shutil.rmtree(markdown_dir)`. -/
def rmtreeMarkdownDir (s : WsState) : Except IOErr WsState :=
  if s.markdownDirPresent then .ok { s with markdownDirPresent := false }
  else .error .fileNotFound

/-- The clearing prelude of `run_olmocr_conversion` (lines 96-132), with the
configuration in scope exactly as `kwargs` is in the code: line 96 ensures
the directories exist, lines 104-105 remove the work index if present,
lines 109-114 remove and recreate the pdf directory if present, lines
117-121 and 124-132 remove the results and markdown directories if
present. -/
def clearPriorState (cfg : JobConfig) (s0 : WsState) : Except IOErr WsState := do
  let s := get_workspace_dirs s0
  let s ← if s.workIndexPresent then osRemoveWorkIndex s else pure s
  let s ← if s.pdfDir.isSome then do
            let s2 ← rmtreePdfDir s
            pure { s2 with pdfDir := some (s2.pdfDir.getD []) }
          else pure s
  let s ← if s.resultsDirPresent then rmtreeResultsDir s else pure s
  let s ← if s.markdownDirPresent then rmtreeMarkdownDir s else pure s
  pure s

/-- The state every run starts from after the clearing prelude. -/
def clearedState : WsState :=
  { pdfDir := some []
    outputsDirPresent := true
    resultsDirPresent := false
    markdownDirPresent := false
    workIndexPresent := false }

/-! ## Result collection and packaging (lines 390-582)

After the read loop, `return_code = process.poll()` decides everything: a
nonzero code reports failure and touches no files; code `0` walks
`workspace_dir/markdown` with `os.walk` collecting `*.md` files, then
delivers one file directly (through `latex_replace`, named after the first
upload) or zips several (raw bytes, archived under
`os.path.relpath(md_file, markdown_dir)`). -/

/-- Paths as component lists; `p₁ ++ p₂` is `os.path.join`. -/
abbrev FsPath := List String

/-- A directory: named files with contents, and named subdirectories. -/
inductive DirTree where
  | node (files : List (String × String)) (subdirs : List (String × DirTree))

mutual

/-- The `os.walk` collection of lines 402-406 relative to the walked root:
top-down, the files of a directory before its subdirectories, keeping every
file whose name ends in `.md` together with its content. -/
def walkRel : DirTree → List (FsPath × String)
  | .node files subdirs =>
      ((files.filter (fun f => hasMdExt f.1)).map (fun f => ([f.1], f.2)))
        ++ walkRelDirs subdirs

/-- Walk a subdirectory list in order, prefixing each result with the
subdirectory name. -/
def walkRelDirs : List (String × DirTree) → List (FsPath × String)
  | [] => []
  | (d, t) :: rest =>
      ((walkRel t).map (fun pc => (d :: pc.1, pc.2))) ++ walkRelDirs rest

end

/-- The same walk with `os.walk`-style absolute paths: every collected path
is the walked root joined with the file location inside the tree. -/
def absWalk (base : FsPath) (t : DirTree) : List (FsPath × String) :=
  (walkRel t).map (fun pc => (base ++ pc.1, pc.2))

/-- `os.path.relpath(p, base)` for a path produced by walking `base`:
drop the root components. -/
def relpath (p base : FsPath) : FsPath := p.drop base.length

/-- Terminal outcome of the post-exit phase of `main`. -/
inductive Outcome where
  | runtimeFailure (code : Int)
  | emptyResult
  | missingOutputsDir (strays : List (FsPath × String))
  | singleFile (data : String) (fileName : String)
  | multiFile (entries : List (FsPath × String))
deriving DecidableEq, Repr

/-- Lines 390-582 of `main` after the read loop.  `returnCode` is
`process.poll()`; `uploadedNames` the names of `uploaded_files`; `mdTree`
the `workspace_dir/markdown` directory when it exists; `wsTree` the whole
workspace tree, scanned only in the missing-directory fallback of lines
563-577.  On nonzero exit (lines 579-582) the failure is reported with the
code and no directory is read.  On exit 0 with exactly one collected file
(lines 418-439) the download payload is `latex_replace` of the file text
and the suggested name is the first upload name with its extension replaced
by `.md`; with several files (lines 470-499) the payload is one zip whose
entries hold each file raw under its path relative to the markdown root. -/
def processResults (returnCode : Int) (uploadedNames : List String)
    (wsPath : FsPath) (wsTree : DirTree) (mdTree : Option DirTree) : Outcome :=
  if returnCode = 0 then
    match mdTree with
    | some t =>
        let mdRoot := wsPath ++ ["markdown"]
        match absWalk mdRoot t with
        | [] => .emptyResult
        | [pc] =>
            .singleFile (latex_replace pc.2)
              (splitextStem (uploadedNames.headD "") ++ ".md")
        | files =>
            .multiFile (files.map (fun pc => (relpath pc.1 mdRoot, pc.2)))
    | none => .missingOutputsDir (absWalk wsPath wsTree)
  else .runtimeFailure returnCode

/-- The preview path of lines 546-554: each previewed file is read, passed
through `latex_replace`, and truncated to the first 5000 characters. -/
def previewOf (content : String) : String := (latex_replace content).take 5000

/-! ## Step equations and span lemmas for `mathSub` -/

theorem mathSub_none_nil (o cl : Char) (w : List Char) :
    mathSub o cl w none [] = [] := rfl

theorem mathSub_none_esc (o cl : Char) (w : List Char) (c : Char) (rest : List Char) :
    mathSub o cl w none ('\\' :: c :: rest) =
      if c = o then mathSub o cl w (some []) rest
      else '\\' :: mathSub o cl w none (c :: rest) := by
  rfl

theorem mathSub_none_plain (o cl : Char) (w : List Char) (a : Char) (rest : List Char)
    (ha : a ≠ '\\') :
    mathSub o cl w none (a :: rest) = a :: mathSub o cl w none rest := by
  rw [mathSub.eq_def]
  split <;> simp_all

theorem mathSub_none_single (o cl : Char) (w : List Char) (a : Char) :
    mathSub o cl w none [a] = [a] := by
  rw [mathSub.eq_def]
  split <;> simp_all
  rfl

theorem mathSub_some_nil (o cl : Char) (w buf : List Char) :
    mathSub o cl w (some buf) [] = '\\' :: o :: buf.reverse := rfl

theorem mathSub_some_esc (o cl : Char) (w buf : List Char) (c : Char) (rest : List Char) :
    mathSub o cl w (some buf) ('\\' :: c :: rest) =
      if c = cl then w ++ buf.reverse ++ w ++ mathSub o cl w none rest
      else mathSub o cl w (some ('\\' :: buf)) (c :: rest) := by
  rfl

theorem mathSub_some_plain (o cl : Char) (w buf : List Char) (a : Char) (rest : List Char)
    (ha : a ≠ '\\') :
    mathSub o cl w (some buf) (a :: rest) = mathSub o cl w (some (a :: buf)) rest := by
  rw [mathSub.eq_def]
  split <;> simp_all

/-- Decompose a substring test at a cons cell. -/
theorem occursIn_cons_false {pat : List Char} {a : Char} {t : List Char}
    (h : occursIn pat (a :: t) = false) :
    pat.isPrefixOf (a :: t) = false ∧ occursIn pat t = false := by
  rw [occursIn, Bool.or_eq_false_iff] at h
  exact h

/-- A scan that never meets the opening marker copies its input unchanged. -/
theorem mathSub_no_open (o cl : Char) (w : List Char) (l : List Char)
    (h : occursIn ['\\', o] l = false) :
    mathSub o cl w none l = l := by
  induction l with
  | nil => rfl
  | cons a t ih =>
      obtain ⟨h1, h2⟩ := occursIn_cons_false h
      by_cases ha : a = '\\'
      · subst ha
        cases t with
        | nil => exact mathSub_none_single o cl w '\\'
        | cons b r =>
            have hb : b ≠ o := by
              intro hbo
              subst hbo
              simp [List.isPrefixOf] at h1
            rw [mathSub_none_esc, if_neg hb, ih h2]
      · rw [mathSub_none_plain o cl w a t ha, ih h2]

/-- A marker-free prefix that does not end in a backslash passes through the
scan unchanged, and scanning continues independently on the remainder. -/
theorem mathSub_prefix (o cl : Char) (w : List Char) (pre l : List Char)
    (h : occursIn ['\\', o] pre = false) (hlast : pre.getLast? ≠ some '\\') :
    mathSub o cl w none (pre ++ l) = pre ++ mathSub o cl w none l := by
  induction pre with
  | nil => rfl
  | cons a t ih =>
      obtain ⟨h1, h2⟩ := occursIn_cons_false h
      by_cases ha : a = '\\'
      · subst ha
        cases t with
        | nil => simp at hlast
        | cons b r =>
            have hb : b ≠ o := by
              intro hbo
              subst hbo
              simp [List.isPrefixOf] at h1
            have hlast2 : (b :: r).getLast? ≠ some '\\' := by
              rwa [List.getLast?_cons_cons] at hlast
            rw [List.cons_append, List.cons_append, mathSub_none_esc, if_neg hb,
              ← List.cons_append, ih h2 hlast2, List.cons_append]
            simp
      · have hlast2 : t.getLast? ≠ some '\\' := by
          cases t with
          | nil => simp
          | cons b r => rwa [List.getLast?_cons_cons] at hlast
        rw [List.cons_append, mathSub_none_plain o cl w a (t ++ l) ha, ih h2 hlast2]
        simp

/-- Inside a span whose body contains no closing marker, the scan buffers the
body, emits it wrapped at the first closing marker, and resumes outside. -/
theorem mathSub_close (o cl : Char) (w : List Char) (inner rest buf : List Char)
    (hcl : cl ≠ '\\') (hinner : occursIn ['\\', cl] inner = false) :
    mathSub o cl w (some buf) (inner ++ '\\' :: cl :: rest) =
      w ++ buf.reverse ++ inner ++ w ++ mathSub o cl w none rest := by
  induction inner generalizing buf with
  | nil =>
      rw [List.nil_append, mathSub_some_esc, if_pos rfl]
      simp
  | cons a t ih =>
      obtain ⟨h1, h2⟩ := occursIn_cons_false hinner
      by_cases ha : a = '\\'
      · subst ha
        cases t with
        | nil =>
            rw [List.cons_append, List.nil_append, mathSub_some_esc,
              if_neg (Ne.symm hcl), mathSub_some_esc, if_pos rfl]
            simp
        | cons b r =>
            have hb : b ≠ cl := by
              intro hbc
              subst hbc
              simp [List.isPrefixOf] at h1
            rw [List.cons_append, List.cons_append, mathSub_some_esc, if_neg hb,
              ← List.cons_append, ih _ h2]
            simp
      · rw [List.cons_append, mathSub_some_plain o cl w buf a _ ha, ih _ h2]
        simp

/-- The head-span equation: a span at the head of the input is replaced by
its body wrapped in the delimiters, and the scan resumes after it. -/
theorem mathSub_span (o cl : Char) (w : List Char) (inner rest : List Char)
    (hcl : cl ≠ '\\') (hinner : occursIn ['\\', cl] inner = false) :
    mathSub o cl w none ('\\' :: o :: (inner ++ '\\' :: cl :: rest)) =
      w ++ inner ++ w ++ mathSub o cl w none rest := by
  rw [mathSub_none_esc, if_pos rfl, mathSub_close o cl w inner rest [] hcl hinner]
  simp

/-! ## Auxiliary string lemmas -/

theorem string_data_append (a b : String) : (a ++ b).data = a.data ++ b.data := by
  cases a
  cases b
  rfl

theorem string_append_right_cancel {a b c : String} (h : a ++ c = b ++ c) : a = b := by
  have hd : a.data ++ c.data = b.data ++ c.data := by
    rw [← string_data_append, ← string_data_append, h]
  have hab : a.data = b.data := List.append_cancel_right hd
  cases a
  cases b
  exact congrArg String.mk hab

/-- Every selectable language name starts with an uppercase letter. -/
theorem lname_head (l : Lang) :
    ∃ c cs, (Lang.lname l).data = c :: cs ∧ c ≠ '-' := by
  cases l <;> exact ⟨_, _, rfl, by decide⟩

/-- A joined non-empty language-name list is never the flag token itself:
the join starts with a letter, the flag with a dash. -/
theorem commaJoin_map_lname_ne_flag (l : Lang) (rest : List Lang) :
    commaJoin ((l :: rest).map Lang.lname) ≠ langFlag := by
  have hsplit : ∃ t : String,
      commaJoin ((l :: rest).map Lang.lname) = Lang.lname l ++ t := by
    cases rest with
    | nil => exact ⟨"", by simp [commaJoin]⟩
    | cons r rs =>
        refine ⟨"," ++ commaJoin ((r :: rs).map Lang.lname), ?_⟩
        simp [commaJoin, String.append_assoc]
  obtain ⟨t, ht⟩ := hsplit
  obtain ⟨c, cs, hdata, hc⟩ := lname_head l
  intro h
  rw [ht] at h
  have hd := congrArg String.data h
  rw [string_data_append, hdata] at hd
  have hh : (c :: (cs ++ t.data)).head? = langFlag.data.head? := by
    rw [← hd]
    rfl
  have hflag : langFlag.data.head? = some '-' := by decide
  rw [hflag] at hh
  simp at hh
  exact hc hh

/-- Joining a base path onto every walked relative path and stripping the
base off again is the identity: archive entry paths are exactly the
locations of the artifacts inside the walked tree. -/
theorem rel_abs_roundtrip (base : FsPath) (l : List (FsPath × String)) :
    (l.map (fun pc => (base ++ pc.1, pc.2))).map
        (fun pc => (relpath pc.1 base, pc.2)) = l := by
  induction l with
  | nil => rfl
  | cons a t ih =>
      simp only [List.map_cons, relpath, List.drop_left] at ih ⊢
      rw [ih]

/-! ## Claim theorems -/

/-- C4: building the external command is a pure, deterministic function of
the job configuration (which, per the data model, carries the service base
URL and the optional credential), the workspace root, and the staged input
paths: `buildCmd` is a plain function of exactly these three values, so two
calls with equal arguments produce identical argument vectors. -/
theorem buildCmd_deterministic (cfg1 cfg2 : JobConfig) (ws1 ws2 : String)
    (ins1 ins2 : List String)
    (hcfg : cfg1 = cfg2) (hws : ws1 = ws2) (hins : ins1 = ins2) :
    buildCmd cfg1 ws1 ins1 = buildCmd cfg2 ws2 ins2 := by
  subst hcfg
  subst hws
  subst hins
  rfl

/-- Witness for `buildCmd_deterministic` at a concrete configuration. -/
theorem buildCmd_deterministic_witness :
    (⟨"http://vllm-server:30024", none, some 1288, true, false, some 4,
        [Lang.english]⟩ : JobConfig) =
      ⟨"http://vllm-server:30024", none, some 1288, true, false, some 4,
        [Lang.english]⟩ ∧
    ("/workspace" : String) = "/workspace" ∧
    (["/workspace/pdfs/1_ab_a.pdf"] : List String) = ["/workspace/pdfs/1_ab_a.pdf"] ∧
    buildCmd ⟨"http://vllm-server:30024", none, some 1288, true, false, some 4,
        [Lang.english]⟩ "/workspace" ["/workspace/pdfs/1_ab_a.pdf"] =
      buildCmd ⟨"http://vllm-server:30024", none, some 1288, true, false, some 4,
        [Lang.english]⟩ "/workspace" ["/workspace/pdfs/1_ab_a.pdf"] :=
  ⟨rfl, rfl, rfl,
    buildCmd_deterministic _ _ _ _ _ _ rfl rfl rfl⟩

/-- C6: the health probe returns true exactly on a received response with
status 200 — so true only on success; every exception (timeout, network
failure, anything else) and every non-success status yields false, the
reified `try`/bare-`except` making the probe total; and a false probe means
the start handler returns before the conversion process is spawned. -/
theorem probe_gates_spawn (net : NetOutcome) :
    (check_vllm_server_status net = true ↔ net = .status 200) ∧
    (∀ cfg ws ins, check_vllm_server_status net = false →
        spawnDecision net cfg ws ins = none) := by
  constructor
  · cases net <;> simp [check_vllm_server_status]
  · intro cfg ws ins h
    simp [spawnDecision, h]

/-- Witness for `probe_gates_spawn`: a timed-out probe returns false and no
process is spawned. -/
theorem probe_gates_spawn_witness :
    check_vllm_server_status NetOutcome.timeout = false ∧
    spawnDecision NetOutcome.timeout
      ⟨"http://vllm-server:30024", none, some 1288, true, false, some 4, []⟩
      "/workspace" ["a.pdf"] = none :=
  ⟨rfl, (probe_gates_spawn NetOutcome.timeout).2 _ _ _ rfl⟩

/-- C7: a nonzero exit code makes the job outcome a runtime failure carrying
exactly that code, and the result phase never inspects the workspace: the
outcome is the same whatever the markdown directory or workspace tree
contain, so no artifacts are collected or delivered. -/
theorem nonzero_exit_no_collection (code : Int) (ups : List String)
    (wsPath : FsPath) (wsTree wsTree2 : DirTree) (mdTree mdTree2 : Option DirTree)
    (h : code ≠ 0) :
    processResults code ups wsPath wsTree mdTree = .runtimeFailure code ∧
    processResults code ups wsPath wsTree mdTree =
      processResults code ups wsPath wsTree2 mdTree2 := by
  constructor
  · simp [processResults, h]
  · simp [processResults, h]

/-- Witness for `nonzero_exit_no_collection` at exit code 137 with a
markdown directory that does contain an artifact. -/
theorem nonzero_exit_no_collection_witness :
    (137 : Int) ≠ 0 ∧
    (processResults 137 ["doc.pdf"] ["ws"] (.node [] [])
        (some (.node [("x.md", "content")] [])) = .runtimeFailure 137 ∧
      processResults 137 ["doc.pdf"] ["ws"] (.node [] [])
          (some (.node [("x.md", "content")] [])) =
        processResults 137 ["doc.pdf"] ["ws"] (.node [] []) none) :=
  ⟨by decide,
    nonzero_exit_no_collection 137 ["doc.pdf"] ["ws"] (.node [] []) (.node [] [])
      (some (.node [("x.md", "content")] [])) none (by decide)⟩

/-- C10: the conversion prelude clears prior workspace state unconditionally
and safely for every starting state and every configuration: it always
succeeds (clearing an absent area is a guarded no-op, never an error), it
leaves the work index removed, the inputs directory recreated empty, and
the results and markdown directories removed, and no configuration value
can change — let alone skip — the clearing. -/
theorem clearing_unconditional (cfg cfg2 : JobConfig) (s : WsState) :
    clearPriorState cfg s = .ok clearedState ∧
    clearPriorState cfg s = clearPriorState cfg2 s := by
  have hconst : ∀ cfg3 : JobConfig, clearPriorState cfg3 s = .ok clearedState := by
    intro cfg3
    rcases s with ⟨pd, od, rd, md, wi⟩
    cases pd <;> cases rd <;> cases md <;> cases wi <;> rfl
  exact ⟨hconst cfg, by rw [hconst cfg, hconst cfg2]⟩

/-- C5: an empty allowed-language set never emits the language-filter flag;
a non-empty set appends the flag exactly once, as the final two argument
tokens, valued with the comma-join of the selected names in selection
order.  The hypothesis rules out the degenerate free-form inputs (workspace
path, staged paths, URL, credential) happening to equal the flag token. -/
theorem language_flag_emission (cfg : JobConfig) (ws : String) (ins : List String)
    (hrest : langFlag ∉ buildCmdNoLang cfg ws ins) :
    (cfg.languages_to_keep = [] → langFlag ∉ buildCmd cfg ws ins) ∧
    (cfg.languages_to_keep ≠ [] →
      buildCmd cfg ws ins =
        buildCmdNoLang cfg ws ins ++
          [langFlag, commaJoin (cfg.languages_to_keep.map Lang.lname)] ∧
      List.count langFlag (buildCmd cfg ws ins) = 1) := by
  constructor
  · intro hempty
    rw [buildCmd, hempty]
    simpa using hrest
  · intro hne
    obtain ⟨a, as, hcons⟩ := List.exists_cons_of_ne_nil hne
    have hsegment : buildCmd cfg ws ins =
        buildCmdNoLang cfg ws ins ++
          [langFlag, commaJoin (cfg.languages_to_keep.map Lang.lname)] := by
      rw [buildCmd, hcons]
      rfl
    refine ⟨hsegment, ?_⟩
    rw [hsegment, List.count_append]
    have hjoin : commaJoin (cfg.languages_to_keep.map Lang.lname) ≠ langFlag := by
      rw [hcons]
      exact commaJoin_map_lname_ne_flag a as
    rw [List.count_eq_zero.mpr hrest]
    simp [List.count_cons, hjoin.symm, Ne.symm hjoin]

/-- Witness for `language_flag_emission`: a config selecting English and
Portuguese emits the flag once with value `ENGLISH,PORTUGUESE`; the same
config with no languages emits no flag. -/
theorem language_flag_emission_witness :
    (langFlag ∉ buildCmdNoLang
        ⟨"http://vllm-server:30024", none, some 1288, true, false, some 4,
          [Lang.english, Lang.portuguese]⟩ "/workspace" ["/workspace/pdfs/a.pdf"]) ∧
    (buildCmd ⟨"http://vllm-server:30024", none, some 1288, true, false, some 4,
          [Lang.english, Lang.portuguese]⟩ "/workspace" ["/workspace/pdfs/a.pdf"] =
        buildCmdNoLang ⟨"http://vllm-server:30024", none, some 1288, true, false,
          some 4, [Lang.english, Lang.portuguese]⟩ "/workspace"
          ["/workspace/pdfs/a.pdf"] ++ [langFlag, "ENGLISH,PORTUGUESE"] ∧
      List.count langFlag (buildCmd ⟨"http://vllm-server:30024", none, some 1288,
          true, false, some 4, [Lang.english, Lang.portuguese]⟩ "/workspace"
          ["/workspace/pdfs/a.pdf"]) = 1) ∧
    (langFlag ∉ buildCmd ⟨"http://vllm-server:30024", none, some 1288, true, false,
        some 4, []⟩ "/workspace" ["/workspace/pdfs/a.pdf"]) := by
  refine ⟨by decide, ?_, ?_⟩
  · have h := (language_flag_emission
        ⟨"http://vllm-server:30024", none, some 1288, true, false, some 4,
          [Lang.english, Lang.portuguese]⟩ "/workspace" ["/workspace/pdfs/a.pdf"]
        (by decide)).2 (by decide)
    exact h
  · exact (language_flag_emission
        ⟨"http://vllm-server:30024", none, some 1288, true, false, some 4, []⟩
        "/workspace" ["/workspace/pdfs/a.pdf"] (by decide)).1 rfl

/-- C2 counterexample: within one run the timestamp and session id are drawn
once, so staging two uploads that share the original name `a.pdf` produces
the identical path twice, and reading that path back returns the second
buffer — the first write has been overwritten, contrary to the claim that
any two staging calls give distinct paths and neither overwrites. -/
theorem staging_same_run_collision :
    (stageUploads 1700000000 "abcd1234" [("a.pdf", [1]), ("a.pdf", [2])] []).1 =
      ["1700000000_abcd1234_a.pdf", "1700000000_abcd1234_a.pdf"] ∧
    storeRead
        (stageUploads 1700000000 "abcd1234" [("a.pdf", [1]), ("a.pdf", [2])] []).2
        "1700000000_abcd1234_a.pdf" = some [2] := by
  decide

/-- C2 amended: staging calls from two runs with distinct disambiguator
prefixes (`f"{timestamp}_{session_id}"`) give two documents sharing an
original filename distinct paths, and neither write overwrites the other;
but two staging calls within one run (shared prefix) give the same name the
identical path, the second write overwriting the first. -/
theorem staging_distinct_runs (ts1 ts2 : Nat) (sid1 sid2 name : String)
    (b1 b2 : List Nat) (s0 : PdfStore)
    (hpre : runPrefix ts1 sid1 ≠ runPrefix ts2 sid2) :
    (stageName ts1 sid1 name ≠ stageName ts2 sid2 name) ∧
    (storeRead (storeWrite (storeWrite s0 (stageName ts1 sid1 name) b1)
          (stageName ts2 sid2 name) b2) (stageName ts1 sid1 name) = some b1 ∧
      storeRead (storeWrite (storeWrite s0 (stageName ts1 sid1 name) b1)
          (stageName ts2 sid2 name) b2) (stageName ts2 sid2 name) = some b2) ∧
    ((stageUploads ts1 sid1 [(name, b1), (name, b2)] s0).1 =
        [stageName ts1 sid1 name, stageName ts1 sid1 name] ∧
      storeRead (stageUploads ts1 sid1 [(name, b1), (name, b2)] s0).2
          (stageName ts1 sid1 name) = some b2) := by
  have hne : stageName ts1 sid1 name ≠ stageName ts2 sid2 name := by
    intro h
    rw [stageName, stageName, String.append_assoc, String.append_assoc] at h
    exact hpre (string_append_right_cancel h)
  refine ⟨hne, ⟨?_, ?_⟩, ⟨?_, ?_⟩⟩
  · have hbeq : (stageName ts2 sid2 name == stageName ts1 sid1 name) = false :=
      beq_eq_false_iff_ne.mpr (Ne.symm hne)
    simp [storeRead, storeWrite, List.find?, hbeq]
  · simp [storeRead, storeWrite, List.find?]
  · simp [stageUploads]
  · simp [stageUploads, storeRead, storeWrite, List.find?]

/-- Witness for `staging_distinct_runs` at two concrete runs sharing the
uploaded name. -/
theorem staging_distinct_runs_witness :
    (runPrefix 1700000000 "abcd1234" ≠ runPrefix 1700000007 "cafe0011") ∧
    ((stageName 1700000000 "abcd1234" "a.pdf" ≠
        stageName 1700000007 "cafe0011" "a.pdf") ∧
      (storeRead (storeWrite (storeWrite [] (stageName 1700000000 "abcd1234" "a.pdf") [1])
            (stageName 1700000007 "cafe0011" "a.pdf") [2])
            (stageName 1700000000 "abcd1234" "a.pdf") = some [1] ∧
        storeRead (storeWrite (storeWrite [] (stageName 1700000000 "abcd1234" "a.pdf") [1])
            (stageName 1700000007 "cafe0011" "a.pdf") [2])
            (stageName 1700000007 "cafe0011" "a.pdf") = some [2]) ∧
      ((stageUploads 1700000000 "abcd1234" [("a.pdf", [1]), ("a.pdf", [2])] []).1 =
          [stageName 1700000000 "abcd1234" "a.pdf",
            stageName 1700000000 "abcd1234" "a.pdf"] ∧
        storeRead (stageUploads 1700000000 "abcd1234"
            [("a.pdf", [1]), ("a.pdf", [2])] []).2
            (stageName 1700000000 "abcd1234" "a.pdf") = some [2])) :=
  ⟨by decide,
    staging_distinct_runs 1700000000 1700000007 "abcd1234" "cafe0011" "a.pdf"
      [1] [2] [] (by decide)⟩

/-- C3 counterexample: the line `✅ SUCCESS` contains no error, warning or
connection marker (and the code has no "no work to do" marker at all), yet
the display chain classifies it `success`, a class distinct from `normal` —
refuting the claimed otherwise-normal default; and the line
`CONNECTION ERROR` trips both the error counter and the connection counter
at once — refuting the claimed single highest-priority classification. -/
theorem log_classification_counterexample :
    classifyLine "✅ SUCCESS" = LogClass.success ∧
    LogClass.success ≠ LogClass.normal ∧
    hasAnyMarker "✅ SUCCESS" errMarkers = false ∧
    hasAnyMarker "✅ SUCCESS" warnMarkers = false ∧
    countsAsConnectionError "✅ SUCCESS" = false ∧
    countsAsError "CONNECTION ERROR" = true ∧
    countsAsConnectionError "CONNECTION ERROR" = true := by
  decide

/-- C3 amended: per-line handling is total and never raises, but it is two
independent mechanisms rather than one five-way priority chain.  The
display chain resolves multiple markers by fixed priority error over
warning over success over plain; there is no "no work to do" class and no
connection-error display class.  The two counters fire on their own marker
sets, independently of the chain and of each other. -/
theorem log_classification_behaviour (line : String) :
    (hasAnyMarker line errMarkers = true → classifyLine line = LogClass.error) ∧
    (hasAnyMarker line errMarkers = false → hasAnyMarker line warnMarkers = true →
        classifyLine line = LogClass.warning) ∧
    (hasAnyMarker line errMarkers = false → hasAnyMarker line warnMarkers = false →
        hasAnyMarker line successMarkers = true →
        classifyLine line = LogClass.success) ∧
    (hasAnyMarker line errMarkers = false → hasAnyMarker line warnMarkers = false →
        hasAnyMarker line successMarkers = false →
        classifyLine line = LogClass.normal) ∧
    (countsAsError line =
      (strContains line "ERROR" || strContains line "💥" || strContains line "❌")) ∧
    (countsAsConnectionError line =
      (strContains line "CONNECTION ERROR" || strContains line "🔌")) := by
  refine ⟨?_, ?_, ?_, ?_, rfl, rfl⟩
  · intro h1
    simp [classifyLine, h1]
  · intro h1 h2
    simp [classifyLine, h1, h2]
  · intro h1 h2 h3
    simp [classifyLine, h1, h2, h3]
  · intro h1 h2 h3
    simp [classifyLine, h1, h2, h3]

/-- Witness for `log_classification_behaviour` on concrete lines for each
discharged hypothesis set. -/
theorem log_classification_behaviour_witness :
    (hasAnyMarker "boom 💥" errMarkers = true ∧
      classifyLine "boom 💥" = LogClass.error) ∧
    (hasAnyMarker "plain progress line" errMarkers = false ∧
      hasAnyMarker "plain progress line" warnMarkers = false ∧
      hasAnyMarker "plain progress line" successMarkers = false ∧
      classifyLine "plain progress line" = LogClass.normal) :=
  ⟨⟨by decide, (log_classification_behaviour "boom 💥").1 (by decide)⟩,
    ⟨by decide, by decide, by decide,
      (log_classification_behaviour "plain progress line").2.2.2.1
        (by decide) (by decide) (by decide)⟩⟩

/-- C1 counterexample: with exit code 0 and exactly one artifact `x.md`
containing a display-math span, the delivered payload is the
`latex_replace` transform of the text, not the raw bytes, and the suggested
filename is derived from the uploaded document name, not the artifact
name. -/
theorem single_delivery_counterexample :
    processResults 0 ["doc.pdf"] ["ws"] (.node [] [])
        (some (.node [("x.md", "\\[y\\]")] [])) =
      Outcome.singleFile "$$y$$" "doc.md" ∧
    ("$$y$$" : String) ≠ "\\[y\\]" ∧
    ("doc.md" : String) ≠ "x.md" := by
  decide

/-- C1 amended: exit code 0 with exactly one matching artifact makes
collection a one-element set, and delivery provides the `latex_replace`
transform of that artifact's text under a filename formed from the first
uploaded document's stem with the `.md` extension. -/
theorem single_delivery (u : String) (rest : List String) (wsPath : FsPath)
    (wsTree t : DirTree) (rp : FsPath) (c : String)
    (hwalk : walkRel t = [(rp, c)]) :
    (absWalk (wsPath ++ ["markdown"]) t).length = 1 ∧
    processResults 0 (u :: rest) wsPath wsTree (some t) =
      Outcome.singleFile (latex_replace c) (splitextStem u ++ ".md") := by
  constructor
  · simp [absWalk, hwalk]
  · simp [processResults, absWalk, hwalk]

/-- Witness for `single_delivery` at a concrete one-artifact tree. -/
theorem single_delivery_witness :
    walkRel (.node [("x.md", "t \\(u\\) v")] []) = [(["x.md"], "t \\(u\\) v")] ∧
    ((absWalk (["ws"] ++ ["markdown"]) (.node [("x.md", "t \\(u\\) v")] [])).length = 1 ∧
      processResults 0 ("doc.pdf" :: []) ["ws"] (.node [] [])
          (some (.node [("x.md", "t \\(u\\) v")] [])) =
        Outcome.singleFile (latex_replace "t \\(u\\) v")
          (splitextStem "doc.pdf" ++ ".md")) :=
  ⟨by decide,
    single_delivery "doc.pdf" [] ["ws"] (.node [] [])
      (.node [("x.md", "t \\(u\\) v")] []) ["x.md"] "t \\(u\\) v" (by decide)⟩

/-- C8: with exit code 0 and at least two matching artifacts (wherever they
sit in the output subtree), packaging yields a single archive whose entry
list is exactly the walked artifact list — every entry is stored under the
artifact's path relative to the markdown root with its unmodified content —
and every walked absolute path is the markdown root joined with that
relative path. -/
theorem multi_delivery (ups : List String) (wsPath : FsPath) (wsTree t : DirTree)
    (e1 e2 : FsPath × String) (es : List (FsPath × String))
    (hwalk : walkRel t = e1 :: e2 :: es) :
    processResults 0 ups wsPath wsTree (some t) = Outcome.multiFile (walkRel t) ∧
    absWalk (wsPath ++ ["markdown"]) t =
      (walkRel t).map (fun pc => ((wsPath ++ ["markdown"]) ++ pc.1, pc.2)) := by
  refine ⟨?_, rfl⟩
  have habs : absWalk (wsPath ++ ["markdown"]) t =
      (fun pc => ((wsPath ++ ["markdown"]) ++ pc.1, pc.2)) e1 ::
        (fun pc => ((wsPath ++ ["markdown"]) ++ pc.1, pc.2)) e2 ::
        es.map (fun pc => ((wsPath ++ ["markdown"]) ++ pc.1, pc.2)) := by
    rw [absWalk, hwalk]
    rfl
  simp only [processResults, if_pos rfl, habs]
  have hmap : ((fun pc => ((wsPath ++ ["markdown"]) ++ pc.1, pc.2)) e1 ::
        (fun pc => ((wsPath ++ ["markdown"]) ++ pc.1, pc.2)) e2 ::
        es.map (fun pc => ((wsPath ++ ["markdown"]) ++ pc.1, pc.2))) =
      (e1 :: e2 :: es).map (fun pc => ((wsPath ++ ["markdown"]) ++ pc.1, pc.2)) := by
    rfl
  rw [hmap, rel_abs_roundtrip (wsPath ++ ["markdown"]) (e1 :: e2 :: es), hwalk]
  simp

/-- Witness for `multi_delivery`: three artifacts under two subdirectories,
two of them sharing the leaf name `a.md`. -/
theorem multi_delivery_witness :
    walkRel (.node []
        [("sub1", .node [("a.md", "A"), ("b.md", "B")] []),
          ("sub2", .node [("a.md", "C")] [])]) =
      (["sub1", "a.md"], "A") :: (["sub1", "b.md"], "B") ::
        [(["sub2", "a.md"], "C")] ∧
    (processResults 0 ["x.pdf", "y.pdf"] ["ws"] (.node [] [])
        (some (.node []
          [("sub1", .node [("a.md", "A"), ("b.md", "B")] []),
            ("sub2", .node [("a.md", "C")] [])])) =
      Outcome.multiFile (walkRel (.node []
        [("sub1", .node [("a.md", "A"), ("b.md", "B")] []),
          ("sub2", .node [("a.md", "C")] [])])) ∧
    absWalk (["ws"] ++ ["markdown"]) (.node []
        [("sub1", .node [("a.md", "A"), ("b.md", "B")] []),
          ("sub2", .node [("a.md", "C")] [])]) =
      (walkRel (.node []
        [("sub1", .node [("a.md", "A"), ("b.md", "B")] []),
          ("sub2", .node [("a.md", "C")] [])])).map
        (fun pc => ((["ws"] ++ ["markdown"]) ++ pc.1, pc.2))) :=
  ⟨by decide,
    multi_delivery ["x.pdf", "y.pdf"] ["ws"] (.node [] [])
      (.node []
        [("sub1", .node [("a.md", "A"), ("b.md", "B")] []),
          ("sub2", .node [("a.md", "C")] [])])
      (["sub1", "a.md"], "A") (["sub1", "b.md"], "B") [(["sub2", "a.md"], "C")]
      (by decide)⟩

/-- C9: `latex_replace` is the composition of the display pass and then the
inline pass; each pass leaves spans of text free of its opening marker
unchanged, and rewrites a backslash-delimited span — body matched
non-greedily, newlines included, characterised by the body containing no
closing marker — into the same body wrapped in the dollar delimiters,
continuing independently on the remainder; a marker-free prefix not ending
in a backslash passes through unchanged.  Delivered single-file content and
previews are this transform of the artifact text, not the raw text. -/
theorem latex_replace_spec :
    (∀ l : List Char, occursIn ['\\', '['] l = false → displayPass l = l) ∧
    (∀ inner rest : List Char, occursIn ['\\', ']'] inner = false →
        displayPass ('\\' :: '[' :: (inner ++ '\\' :: ']' :: rest)) =
          ['$', '$'] ++ inner ++ ['$', '$'] ++ displayPass rest) ∧
    (∀ pre l : List Char, occursIn ['\\', '['] pre = false →
        pre.getLast? ≠ some '\\' →
        displayPass (pre ++ l) = pre ++ displayPass l) ∧
    (∀ l : List Char, occursIn ['\\', '('] l = false → inlinePass l = l) ∧
    (∀ inner rest : List Char, occursIn ['\\', ')'] inner = false →
        inlinePass ('\\' :: '(' :: (inner ++ '\\' :: ')' :: rest)) =
          ['$'] ++ inner ++ ['$'] ++ inlinePass rest) ∧
    (∀ pre l : List Char, occursIn ['\\', '('] pre = false →
        pre.getLast? ≠ some '\\' →
        inlinePass (pre ++ l) = pre ++ inlinePass l) ∧
    (∀ md : String, latex_replace md = ⟨inlinePass (displayPass md.data)⟩) ∧
    (∀ (u : String) (rest : List String) (wsPath : FsPath) (wsTree t : DirTree)
        (rp : FsPath) (c : String), walkRel t = [(rp, c)] →
        processResults 0 (u :: rest) wsPath wsTree (some t) =
          Outcome.singleFile (latex_replace c) (splitextStem u ++ ".md")) ∧
    (∀ content : String, previewOf content = (latex_replace content).take 5000) := by
  refine ⟨?_, ?_, ?_, ?_, ?_, ?_, fun _ => rfl, ?_, fun _ => rfl⟩
  · intro l h
    exact mathSub_no_open '[' ']' ['$', '$'] l h
  · intro inner rest h
    exact mathSub_span '[' ']' ['$', '$'] inner rest (by decide) h
  · intro pre l h hlast
    exact mathSub_prefix '[' ']' ['$', '$'] pre l h hlast
  · intro l h
    exact mathSub_no_open '(' ')' ['$'] l h
  · intro inner rest h
    exact mathSub_span '(' ')' ['$'] inner rest (by decide) h
  · intro pre l h hlast
    exact mathSub_prefix '(' ')' ['$'] pre l h hlast
  · intro u rest wsPath wsTree t rp c hwalk
    simp [processResults, absWalk, hwalk]

/-- Witness for `latex_replace_spec`, discharging each hypothesis-bearing
conjunct at a concrete input. -/
theorem latex_replace_spec_witness :
    (occursIn ['\\', '['] "plain text".data = false ∧
      displayPass "plain text".data = "plain text".data) ∧
    (occursIn ['\\', ']'] "x\n+y".data = false ∧
      displayPass ('\\' :: '[' :: ("x\n+y".data ++ '\\' :: ']' :: " tail".data)) =
        ['$', '$'] ++ "x\n+y".data ++ ['$', '$'] ++ displayPass " tail".data) ∧
    (occursIn ['\\', '['] "lead ".data = false ∧
      "lead ".data.getLast? ≠ some '\\' ∧
      displayPass ("lead ".data ++ "\\[z\\]".data) =
        "lead ".data ++ displayPass "\\[z\\]".data) ∧
    (occursIn ['\\', ')'] "a+b".data = false ∧
      inlinePass ('\\' :: '(' :: ("a+b".data ++ '\\' :: ')' :: [])) =
        ['$'] ++ "a+b".data ++ ['$'] ++ inlinePass []) ∧
    (walkRel (.node [("r.md", "\\(q\\)")] []) = [(["r.md"], "\\(q\\)")] ∧
      processResults 0 ("doc.pdf" :: []) ["ws"] (.node [] [])
          (some (.node [("r.md", "\\(q\\)")] [])) =
        Outcome.singleFile (latex_replace "\\(q\\)") (splitextStem "doc.pdf" ++ ".md")) :=
  ⟨⟨by decide, latex_replace_spec.1 "plain text".data (by decide)⟩,
    ⟨by decide, latex_replace_spec.2.1 "x\n+y".data " tail".data (by decide)⟩,
    ⟨by decide, by decide,
      latex_replace_spec.2.2.1 "lead ".data "\\[z\\]".data (by decide) (by decide)⟩,
    ⟨by decide, latex_replace_spec.2.2.2.2.1 "a+b".data [] (by decide)⟩,
    ⟨by decide,
      latex_replace_spec.2.2.2.2.2.2.2.1 "doc.pdf" [] ["ws"] (.node [] [])
        (.node [("r.md", "\\(q\\)")] []) ["r.md"] "\\(q\\)" (by decide)⟩⟩
